import Mathlib

/-
Verification development for the rag_service front-end (Vue single-file apps).

Shallow embedding conventions:
- Vue component `data` objects become Lean structures; methods become pure
  state-transition functions.
- Network requests are suspension points: each handler takes the outcome of
  its request (parsed JSON on success, non-ok status, transport rejection) as
  an explicit parameter and returns the post-resolution state together with
  the list of user-visible notices (`this.$message.*`) it emitted.
  `console.error` output is not user-visible and is not recorded.
- JavaScript strings are modelled as Lean `String`; the sources under test
  use only BMP, non-surrogate characters, for which JS `.length` agrees with
  `String.length` and `.slice`, `.trim`, `.toLowerCase`, `.includes` are
  embedded as the structural functions `jsSlice`, `jsTrim`, `jsToLower`,
  `strIncludes` below.
- `localStorage` is modelled as a record of the two keys the code uses; the
  JSON stringify/parse round-trip is elided (identity on well-formed data).
  JS coerces non-string arguments of `setItem` to strings, so
  `setItem(k, null)` stores the literal string "null".
-/

/-- Test whether `p` is a (contiguous) prefix of `l`; embedding helper for
JS string searching. -/
def listPrefixOf : List Char → List Char → Bool
  | [], _ => true
  | _ :: _, [] => false
  | a :: as, b :: bs => a = b && listPrefixOf as bs

/-- Test whether `needle` occurs contiguously inside `hay`. -/
def containsSub : List Char → List Char → Bool
  | hay, needle =>
    if listPrefixOf needle hay then true
    else match hay with
      | [] => false
      | _ :: t => containsSub t needle

/-- Embedding of JS `hay.includes(needle)` for strings. -/
def strIncludes (hay needle : String) : Bool :=
  containsSub hay.data needle.data

/-- Embedding of JS `Array.prototype.join(sep)` on an array of strings. -/
def joinSep (sep : String) : List String → String
  | [] => ""
  | [x] => x
  | x :: xs => x ++ sep ++ joinSep sep xs

/-- Embedding of JS `String.prototype.toLowerCase()` (the sources only rely
on its ASCII behavior). -/
def jsToLower (s : String) : String := ⟨s.data.map Char.toLower⟩

/-- Drop leading whitespace characters; building block of `jsTrim`. -/
def dropLeadingWs : List Char → List Char
  | [] => []
  | c :: t => if c.isWhitespace then dropLeadingWs t else c :: t

/-- Embedding of JS `String.prototype.trim()`: strip whitespace from both
ends. -/
def jsTrim (s : String) : String :=
  ⟨dropLeadingWs ((dropLeadingWs s.data.reverse).reverse)⟩

/-- Embedding of JS `str.slice(0, n)` (the sliced strings in the sources
hold only BMP, non-surrogate characters, where JS code units coincide with
characters). -/
def jsSlice (s : String) (n : Nat) : String := ⟨s.data.take n⟩

/-- Truthiness of a nullable JS string (`null` and the empty string are
falsy, every other string is truthy). -/
def jsStrTruthy : Option String → Bool
  | none => false
  | some s => s ≠ ""

/-- A file record as the pages keep it in `uploadedFiles`:
`{ name, size, type, indexed }` (field `type` is called `ftype` here). -/
structure FileRec where
  name : String
  size : Nat
  ftype : String
  indexed : Bool
deriving DecidableEq

/-- An entry of the `/uploads` response: `{ filename, size, type, indexed }`;
an absent `indexed` field is collapsed to `false` by the `|| false` in the
source. -/
structure UploadEntry where
  filename : String
  size : Nat
  ftype : String
  indexed : Bool
deriving DecidableEq

/-- A chat bubble `{ type, content }` as kept in `messages` by
`src/static/app.js` (field `type` is called `mtype` here). -/
structure Msg where
  mtype : String
  content : String
deriving DecidableEq

/-- A user-visible `this.$message.<level>(text)` notice, as (level, text). -/
abbrev Notice := String × String

/- ------------------------------------------------------------------
State and methods of src/static/pages/rag/app.js
------------------------------------------------------------------ -/

/-- The `data()` fields of src/static/pages/rag/app.js that the verified
methods read or write. -/
structure RagState where
  uploadedFiles : List FileRec
  selectedFiles : List String
  selectAll : Bool
  fileSearch : String
  polishEnabled : Bool
  selectedMethod : String
  expandedMethod : Option String
deriving DecidableEq

/-- Initial `data()` of the rag page. -/
def ragInit : RagState :=
  { uploadedFiles := []
    selectedFiles := []
    selectAll := false
    fileSearch := ""
    polishEnabled := false
    selectedMethod := "option1"
    expandedMethod := some "option1" }

/-- The `filteredFiles` computed property of the rag page: all files when the
search is blank, else the files whose lower-cased name contains the
lower-cased search string. -/
def ragFilteredFiles (st : RagState) : List FileRec :=
  if jsTrim st.fileSearch = "" then st.uploadedFiles
  else
    let search := jsToLower st.fileSearch
    st.uploadedFiles.filter fun file =>
      strIncludes (jsToLower file.name) search

/-- `toggleFileSelection(fileName)` of the rag page: remove the first
occurrence when present (indexOf/splice), else push; then recompute
`selectAll` as a length comparison with `filteredFiles`. -/
def toggleFileSelection (st : RagState) (fileName : String) : RagState :=
  let selected :=
    if st.selectedFiles.contains fileName then st.selectedFiles.erase fileName
    else st.selectedFiles ++ [fileName]
  { st with
    selectedFiles := selected
    selectAll := selected.length == (ragFilteredFiles st).length }

/-- `handleSelectAll(val)` of the rag page. The `selectAll := val` assignment
is the checkbox v-model binding, whose template is not under src/ and is
modelled from the spec (setSelectAll sets the flag it is given); the body of
the handler is from the source. -/
def ragHandleSelectAll (st : RagState) (val : Bool) : RagState :=
  { st with
    selectAll := val
    selectedFiles :=
      if val then (ragFilteredFiles st).map (·.name) else [] }

/-- Updating the search box (v-model on `fileSearch`); the rag page installs
no watcher, so nothing else changes. -/
def ragSetSearch (st : RagState) (q : String) : RagState :=
  { st with fileSearch := q }

/-- Success branch of the rag page's `loadUploadedFiles()`: the file list is
replaced wholesale by the mapped response; this page does not clear the
selection. -/
def ragRefreshOk (st : RagState) (files : List UploadEntry) : RagState :=
  { st with
    uploadedFiles :=
      files.map fun f => ⟨f.filename, f.size, f.ftype, f.indexed⟩ }

/-- `toggleMethod(methodId)` of the rag page: collapse when `methodId` is the
expanded one; otherwise expand it and also select it. -/
def toggleMethod (st : RagState) (methodId : String) : RagState :=
  if st.expandedMethod = some methodId then
    { st with expandedMethod := none }
  else
    { st with expandedMethod := some methodId, selectedMethod := methodId }

/-- `selectMethod(methodId)` of the rag page: select and expand. -/
def selectMethod (st : RagState) (methodId : String) : RagState :=
  { st with selectedMethod := methodId, expandedMethod := some methodId }

/- ------------------------------------------------------------------
State and methods of src/static/app.js (the combined page)
------------------------------------------------------------------ -/

/-- The `data()` fields of src/static/app.js that the verified methods read
or write. -/
structure MainState where
  uploadedFiles : List FileRec
  selectedFiles : List String
  selectAll : Bool
  fileSearch : String
  selectedOption : String
  messages : List Msg
  inputMessage : String
  sending : Bool
deriving DecidableEq

/-- Initial `data()` of the combined page (greeting message preloaded). -/
def mainInit : MainState :=
  { uploadedFiles := []
    selectedFiles := []
    selectAll := false
    fileSearch := ""
    selectedOption := "option1"
    messages := [⟨"bot", "你好！我是你的助手。上传文件后，我可以帮你分析内容或回答相关问题。"⟩]
    inputMessage := ""
    sending := false }

/-- Outcome of an awaited `fetch('/uploads')`: parsed JSON on an ok
response, a non-ok status, or a transport rejection. -/
inductive RefreshOutcome where
  | rok (files : List UploadEntry)
  | rnotOk
  | rreject
deriving DecidableEq

/-- `loadUploadedFiles()` of src/static/app.js. On ok: replace the list
wholesale with the mapped response and clear the selection. On a non-ok
response nothing runs; on rejection only `console.error` runs. Neither
failure emits a user-visible notice. -/
def loadUploadedFiles (st : MainState) (ro : RefreshOutcome) :
    MainState × List Notice :=
  match ro with
  | .rok files =>
      ({ st with
          uploadedFiles :=
            files.map fun f => ⟨f.filename, f.size, f.ftype, f.indexed⟩
          selectedFiles := []
          selectAll := false }, [])
  | .rnotOk => (st, [])
  | .rreject => (st, [])

/-- One entry of `failed_files` in the `/index` response. -/
structure FailedFile where
  filename : String
  reason : String
deriving DecidableEq

/-- Parsed `/index` success response; an absent `failed_files` field is the
empty list. -/
structure IndexResult where
  message : String
  failed_files : List FailedFile
deriving DecidableEq

/-- Outcome of the awaited `fetch('/index', ...)`. -/
inductive IndexOutcome where
  | iok (r : IndexResult)
  | inotOk
  | ireject
deriving DecidableEq

/-- `handleIndexClick()` of src/static/app.js. `ro` is the outcome of the
`loadUploadedFiles()` it issues on a parsed response; a non-ok status throws
into the catch, which emits the fixed error notice and leaves state alone. -/
def handleIndexClick (st : MainState) (io : IndexOutcome)
    (ro : RefreshOutcome) : MainState × List Notice :=
  if st.selectedFiles.length = 0 then
    (st, [("warning", "请先选择文件")])
  else
    match io with
    | .iok r =>
        let notice : Notice :=
          if r.failed_files ≠ [] then
            ("warning",
              "部分文件索引失败: " ++
                joinSep ", " (r.failed_files.map (·.filename)))
          else ("success", r.message)
        let (st1, ns) := loadUploadedFiles st ro
        (st1, [("info", "正在创建索引，请稍候...")] ++ [notice] ++ ns)
    | .inotOk =>
        (st, [("info", "正在创建索引，请稍候..."), ("error", "索引失败，请稍后再试")])
    | .ireject =>
        (st, [("info", "正在创建索引，请稍候..."), ("error", "索引失败，请稍后再试")])

/-- Outcome of the awaited `fetch('/index/delete', ...)`; the success
response contributes only its `message`. -/
inductive DelIdxOutcome where
  | dok (message : String)
  | dnotOk
  | dreject
deriving DecidableEq

/-- `handleDeleteIndexClick()` of src/static/app.js. -/
def handleDeleteIndexClick (st : MainState) (io : DelIdxOutcome)
    (ro : RefreshOutcome) : MainState × List Notice :=
  if st.selectedFiles.length = 0 then
    (st, [("warning", "请先选择要删除索引的文件")])
  else
    match io with
    | .dok message =>
        let (st1, ns) := loadUploadedFiles st ro
        (st1, [("success", message)] ++ ns)
    | .dnotOk => (st, [("error", "删除索引失败，请稍后再试")])
    | .dreject => (st, [("error", "删除索引失败，请稍后再试")])

/-- Parsed `/uploads/delete` success response; absent optional fields are
the empty list. -/
structure DeleteResult where
  message : String
  deleted_files : List String
  deleted_indexes : List String
deriving DecidableEq

/-- Outcome of the delete confirmation dialog plus, when confirmed, the
awaited `fetch('/uploads/delete', ...)`. -/
inductive DeleteOutcome where
  | cancel
  | dfOk (r : DeleteResult)
  | dfNotOk
  | dfReject
deriving DecidableEq

/-- The `filesWithIndex` computation of `handleDeleteClick()`: names of the
uploaded files that are both selected and indexed. -/
def filesWithIndex (st : MainState) : List String :=
  (st.uploadedFiles.filter fun f =>
    st.selectedFiles.contains f.name && f.indexed).map (·.name)

/-- The `confirmMessage` text built by `handleDeleteClick()`. -/
def deleteConfirmMessage (st : MainState) : String :=
  let base :=
    "确定要删除选中的 " ++ toString st.selectedFiles.length ++ " 个文件吗？"
  if (filesWithIndex st) ≠ [] then
    base ++ "<br><br><span style=\x22color: #E6A23C;\x22>注意：以下 " ++
      toString (filesWithIndex st).length ++
      " 个文件存在索引，将同时删除：</span><br>" ++
      joinSep "<br>" (filesWithIndex st)
  else base

/-- The index segment of the delete success summary: appended exactly when
`deleted_indexes` is non-empty. -/
def deleteIndexSegment (r : DeleteResult) : String :=
  if r.deleted_indexes ≠ [] then "，索引: " ++ joinSep ", " r.deleted_indexes
  else ""

/-- The file segment of the delete success summary: appended exactly when
`deleted_files` is non-empty. -/
def deleteFileSegment (r : DeleteResult) : String :=
  if r.deleted_files ≠ [] then "，文件: " ++ joinSep ", " r.deleted_files
  else ""

/-- The success summary `msg` built by `handleDeleteClick()`: the server
message followed by the index and file segments. -/
def deleteSummary (r : DeleteResult) : String :=
  r.message ++ deleteIndexSegment r ++ deleteFileSegment r

/-- `handleDeleteClick()` of src/static/app.js. Cancellation is a silent
no-op; on a confirmed ok response the summary is surfaced, the selection is
cleared, and `loadUploadedFiles()` runs with outcome `ro`; a non-ok status
or rejection lands in the catch with the fixed error notice. -/
def handleDeleteClick (st : MainState) (o : DeleteOutcome)
    (ro : RefreshOutcome) : MainState × List Notice :=
  if st.selectedFiles.length = 0 then
    (st, [("warning", "请先选择要删除的文件")])
  else
    match o with
    | .cancel => (st, [])
    | .dfOk r =>
        let st1 := { st with selectedFiles := [], selectAll := false }
        let (st2, ns) := loadUploadedFiles st1 ro
        (st2, [("success", deleteSummary r)] ++ ns)
    | .dfNotOk => (st, [("error", "删除文件失败，请稍后再试")])
    | .dfReject => (st, [("error", "删除文件失败，请稍后再试")])

/- ------------------------------------------------------------------
Chat pipeline of src/static/app.js
------------------------------------------------------------------ -/

/-- Parsed `/chat` success response; an absent `sources` field is the empty
list, an absent `source_type` the empty string. -/
structure ChatResult where
  message : String
  sources : List String
  source_type : String
deriving DecidableEq

/-- Outcome of the awaited `fetch('/chat', ...)`. -/
inductive SendOutcome where
  | sok (r : ChatResult)
  | snotOk
  | sreject
deriving DecidableEq

/-- The body posted to `/chat` by src/static/app.js. -/
structure ChatRequest where
  message : String
  rag_method : String
deriving DecidableEq

/-- The reply-formatting block of `sendMessage()` in src/static/app.js:
non-empty sources get a local citation list or, for any other source type,
the fixed network marker; with empty sources only `source_type === 'general'`
appends the general-knowledge marker. -/
def formatReply (r : ChatResult) : String :=
  if r.sources ≠ [] then
    let sourceText :=
      if r.source_type = "local" then "📚 **出处**：" ++ joinSep "、" r.sources
      else "🌐 **来源**：网络"
    r.message ++ "\n\n" ++ sourceText
  else if r.source_type = "general" then
    r.message ++ "\n\n🌐 **来源**：通用知识"
  else r.message

/-- The part of `sendMessage()` (src/static/app.js) that runs before the
request is awaited: the guard, the user-message append, clearing the input,
and raising the sending flag; the returned request is `none` when the guard
fails. -/
def sendMessageStart (st : MainState) : MainState × Option ChatRequest :=
  let message := jsTrim st.inputMessage
  if message = "" || st.sending then (st, none)
  else
    ({ st with
        messages := st.messages ++ [⟨"user", message⟩]
        inputMessage := ""
        sending := true },
      some ⟨message, st.selectedOption⟩)

/-- The part of `sendMessage()` (src/static/app.js) that runs once the
request has resolved: the bot append for each outcome and the `finally`
block clearing the sending flag. -/
def sendMessageFinish (st : MainState) (o : SendOutcome) :
    MainState × List Notice :=
  match o with
  | .sok r =>
      ({ st with
          messages := st.messages ++ [⟨"bot", formatReply r⟩]
          sending := false }, [])
  | .snotOk =>
      ({ st with
          messages := st.messages ++ [⟨"bot", "抱歉，发生了错误，请稍后再试。"⟩]
          sending := false },
        [("error", "抱歉，发生了错误，请稍后再试。")])
  | .sreject =>
      ({ st with
          messages := st.messages ++ [⟨"bot", "抱歉，发生了错误，请稍后再试。"⟩]
          sending := false },
        [("error", "抱歉，发生了错误，请稍后再试。")])

/-- Whole `sendMessage()` of src/static/app.js: start, then, when a request
was dispatched, the resolution of outcome `o`. -/
def sendMessage (st : MainState) (o : SendOutcome) :
    MainState × Option ChatRequest × List Notice :=
  match sendMessageStart st with
  | (_, none) => (st, none, [])
  | (st1, some req) =>
      let (st2, ns) := sendMessageFinish st1 o
      (st2, some req, ns)

/- ------------------------------------------------------------------
Session chat page (src/unnamed/part_001) and its localStorage layout,
shared with the history page (src/static/pages/history/app.js)
------------------------------------------------------------------ -/

/-- A chat turn `{ role, content }` as kept in `currentMessages`. -/
structure ChatMsg where
  role : String
  content : String
deriving DecidableEq

/-- A persisted session object `{ id, title, time, icon, messages }`. -/
structure ChatRecord where
  id : String
  title : String
  time : String
  icon : String
  messages : List ChatMsg
deriving DecidableEq

/-- The localStorage keys the chat pages use. `none` means the key is
absent; a present key holds the (JSON-elided) value. JS `setItem(k, null)`
coerces the value to the string "null", which for `chatCurrentIdKey` is
modelled as `some "null"`. -/
structure Storage where
  chatHistoriesKey : Option (List (String × ChatRecord))
  chatCurrentIdKey : Option String
deriving DecidableEq

/-- Lookup in the persisted session map (JS object property read). -/
def alLookup (k : String) : List (String × ChatRecord) → Option ChatRecord
  | [] => none
  | (k', v) :: t => if k' = k then some v else alLookup k t

/-- Assignment `histories[k] = v` on the persisted session map: overwrite in
place when the key exists, else append (JS insertion order). -/
def alSet (k : String) (v : ChatRecord) :
    List (String × ChatRecord) → List (String × ChatRecord)
  | [] => [(k, v)]
  | (k', v') :: t =>
      if k' = k then (k, v) :: t else (k', v') :: alSet k v t

/-- Deletion `delete histories[k]` on the persisted session map. -/
def alErase (k : String) :
    List (String × ChatRecord) → List (String × ChatRecord)
  | [] => []
  | (k', v') :: t =>
      if k' = k then t else (k', v') :: alErase k t

/-- Embedding of `JSON.parse(localStorage.getItem('chatHistories') || '{}')`:
the stored map, or empty when the key is absent. -/
def getHistories (s : Storage) : List (String × ChatRecord) :=
  s.chatHistoriesKey.getD []

/-- JS object-property-key coercion of the in-memory `currentChatId`:
`histories[null]` reads the property named "null". -/
def jsPropKey : Option String → String
  | none => "null"
  | some s => s

/-- A sidebar entry as produced by `loadChats()`. -/
structure ChatSummary where
  id : String
  title : String
  time : String
  icon : String
deriving DecidableEq

/-- The `data()` fields of src/unnamed/part_001 that the verified methods
read or write. -/
structure Part1State where
  chats : List ChatSummary
  currentChatId : Option String
  currentMessages : List ChatMsg
  inputMessage : String
  loading : Bool
  polishEnabled : Bool
deriving DecidableEq

/-- Initial `data()` of the session chat page. -/
def part1Init : Part1State :=
  { chats := []
    currentChatId := none
    currentMessages := []
    inputMessage := ""
    loading := false
    polishEnabled := false }

/-- `loadChats()` of src/unnamed/part_001: map `Object.values(histories)`
(insertion order) to summaries, with positional default titles and a time
default taken as a parameter, then reverse. -/
def loadChatsFrom (s : Storage) (nowStr : String) : List ChatSummary :=
  (((getHistories s).map (·.2)).enum.map fun p =>
    { id := p.2.id
      title := if p.2.title = "" then "对话 " ++ toString (p.1 + 1) else p.2.title
      time := if p.2.time = "" then nowStr else p.2.time
      icon := "💬" }).reverse

/-- `initLocalStorage()` of src/unnamed/part_001: seed absent keys — note
that the absent-current-id branch runs `setItem('chatCurrentId', null)`,
storing the literal string "null" — then read `chatCurrentId` into the
in-memory `currentChatId`. -/
def initLocalStorage (s : Storage) : Storage × Option String :=
  let s1 :=
    if s.chatHistoriesKey = none then { s with chatHistoriesKey := some [] }
    else s
  let s2 :=
    if s1.chatCurrentIdKey = none then
      { s1 with chatCurrentIdKey := some "null" }
    else s1
  (s2, s2.chatCurrentIdKey)

/-- `selectChat(id)` of src/unnamed/part_001. -/
def selectChat (st : Part1State) (s : Storage) (id : String) :
    Part1State × Storage :=
  ({ st with
      currentChatId := some id
      currentMessages :=
        match alLookup id (getHistories s) with
        | some rec => rec.messages
        | none => [] },
    { s with chatCurrentIdKey := some id })

/-- `newChat()` of src/unnamed/part_001 with the generated
`'chat_' + Date.now()` id and the locale time string as parameters. -/
def part1NewChat (st : Part1State) (s : Storage) (freshId nowStr : String) :
    Part1State × Storage :=
  let record : ChatRecord := ⟨freshId, "新对话", nowStr, "💬", []⟩
  let s1 : Storage :=
    { s with chatHistoriesKey := some (alSet freshId record (getHistories s)) }
  let st1 := { st with chats := loadChatsFrom s1 nowStr }
  selectChat st1 s1 freshId

/-- `updateChatHistory()` of src/unnamed/part_001: a no-op when the current
id keys no persisted session; otherwise store the in-memory messages and,
once the sequence has more than one entry, re-derive the title from
`currentMessages[1]` (its first 15 characters, the fixed default when that
slice is empty, and "..." appended when the slice is 15 characters long).
The title derivation is split out as `derivedTitle`. -/
def derivedTitle (currentMessages : List ChatMsg) : String :=
  let sliced :=
    match currentMessages[1]? with
    | some m => jsSlice m.content 15
    | none => ""
  let title := if sliced = "" then "新对话" else sliced
  title ++ (if 15 ≤ title.length then "..." else "")

/-- `updateChatHistory()` continued: the per-call storage effect. -/
def updateChatHistory (s : Storage) (currentChatId : Option String)
    (currentMessages : List ChatMsg) : Storage :=
  match alLookup (jsPropKey currentChatId) (getHistories s) with
  | none => s
  | some rec =>
      let rec2 :=
        if currentMessages.length > 1 then
          { rec with
              messages := currentMessages
              title := derivedTitle currentMessages }
        else { rec with messages := currentMessages }
      { s with
          chatHistoriesKey :=
            some (alSet (jsPropKey currentChatId) rec2 (getHistories s)) }

/-- The body posted to `/chat` by src/unnamed/part_001 (fixed method). -/
structure Part1Request where
  message : String
  rag_method : String
  polish : Bool
deriving DecidableEq

/-- `sendMessage()` of src/unnamed/part_001: the guard, optional session
allocation, the user append, the dispatch, the per-outcome resolution (a
non-ok response appends nothing; only an ok response persists via
`updateChatHistory`), and the `finally` clearing the loading flag. Returns
the page state, the storage, and the dispatched request if any. -/
def part1SendMessage (st : Part1State) (s : Storage)
    (freshId nowStr : String) (o : SendOutcome) :
    Part1State × Storage × Option Part1Request :=
  let message := jsTrim st.inputMessage
  if message = "" || st.loading then (st, s, none)
  else
    let p : Part1State × Storage :=
      if !(jsStrTruthy st.currentChatId) then part1NewChat st s freshId nowStr
      else (st, s)
    let st1 := p.1
    let s1 := p.2
    let st2 :=
      { st1 with
          currentMessages := st1.currentMessages ++ [ChatMsg.mk "user" message]
          inputMessage := ""
          loading := true }
    let req : Part1Request := ⟨message, "option1", st.polishEnabled⟩
    match o with
    | .sok r =>
        let st3 :=
          { st2 with
              currentMessages := st2.currentMessages ++ [ChatMsg.mk "bot" r.message] }
        let s2 := updateChatHistory s1 st3.currentChatId st3.currentMessages
        let st4 :=
          { st3 with
              chats :=
                if (alLookup (jsPropKey st3.currentChatId)
                    (getHistories s1)).isSome then
                  loadChatsFrom s2 nowStr
                else st3.chats
              loading := false }
        (st4, s2, some req)
    | .snotOk =>
        ({ st2 with loading := false }, s1, some req)
    | .sreject =>
        let st3 :=
          { st2 with
              currentMessages :=
                st2.currentMessages ++ [ChatMsg.mk "bot" "抱歉，发生了错误。"]
              loading := false }
        (st3, s1, some req)

/-- The confirmed branch of `handleChatCommand('delete', id)` in
src/unnamed/part_001: erase the session, persist, and when it was the active
one clear the in-memory view and run `setItem('chatCurrentId', null)`, which
stores the literal string "null". -/
def part1DeleteChat (st : Part1State) (s : Storage) (id nowStr : String) :
    Part1State × Storage :=
  let s1 : Storage :=
    { s with chatHistoriesKey := some (alErase id (getHistories s)) }
  let (st1, s2) :=
    if st.currentChatId = some id then
      ({ st with currentChatId := none, currentMessages := [] },
        { s1 with chatCurrentIdKey := some "null" })
    else (st, s1)
  ({ st1 with chats := loadChatsFrom s2 nowStr }, s2)

/-- The confirmed branch of `clearAllHistory()` in
src/static/pages/history/app.js: store an empty session map and run
`setItem('chatCurrentId', null)`, which stores the literal string "null". -/
def clearAllHistory (s : Storage) : Storage :=
  { s with chatHistoriesKey := some [], chatCurrentIdKey := some "null" }

/- ------------------------------------------------------------------
Definition written from the words of claim C6, for refinement comparison
------------------------------------------------------------------ -/

/-- The reply-formatting rule exactly as claim C6 states it: non-empty
sources with a local kind give the citation block; otherwise a general kind
gives the general-knowledge marker, a network kind the network marker, and
anything else the bare message. -/
def claimFormatReplyC6 (r : ChatResult) : String :=
  if r.sources ≠ [] ∧ r.source_type = "local" then
    r.message ++ "\n\n" ++ "📚 **出处**：" ++ joinSep "、" r.sources
  else if r.source_type = "general" then
    r.message ++ "\n\n🌐 **来源**：通用知识"
  else if r.source_type = "network" then
    r.message ++ "\n\n🌐 **来源**：网络"
  else r.message

/- ------------------------------------------------------------------
Helper lemmas
------------------------------------------------------------------ -/

theorem listPrefixOf_append_right (n : List Char) :
    ∀ h b, listPrefixOf n h = true → listPrefixOf n (h ++ b) = true := by
  induction n with
  | nil => intro h b _; rfl
  | cons a as ih =>
      intro h b hp
      cases h with
      | nil => simp [listPrefixOf] at hp
      | cons x t =>
          simp only [listPrefixOf, Bool.and_eq_true, decide_eq_true_eq] at hp
          simp only [List.cons_append, listPrefixOf, Bool.and_eq_true,
            decide_eq_true_eq]
          exact ⟨hp.1, ih t b hp.2⟩

theorem listPrefixOf_self_append (n b : List Char) :
    listPrefixOf n (n ++ b) = true := by
  induction n with
  | nil => rfl
  | cons a as ih =>
      simp [List.cons_append, listPrefixOf, ih]

theorem containsSub_of_listPrefixOf (hay n : List Char)
    (hp : listPrefixOf n hay = true) : containsSub hay n = true := by
  unfold containsSub
  simp [hp]

theorem containsSub_cons (x : Char) (t n : List Char) :
    containsSub (x :: t) n =
      (listPrefixOf n (x :: t) || containsSub t n) := by
  cases hlp : listPrefixOf n (x :: t)
  · conv_lhs => unfold containsSub
    simp [hlp]
  · conv_lhs => unfold containsSub
    simp [hlp]

theorem containsSub_append_left (a : List Char) :
    ∀ b n, containsSub b n = true → containsSub (a ++ b) n = true := by
  induction a with
  | nil => intro b n h; simpa using h
  | cons x t ih =>
      intro b n h
      rw [List.cons_append, containsSub_cons]
      rw [ih b n h, Bool.or_true]

theorem containsSub_append_right (a : List Char) :
    ∀ b n, containsSub a n = true → containsSub (a ++ b) n = true := by
  induction a with
  | nil =>
      intro b n h
      unfold containsSub at h
      by_cases hp : listPrefixOf n [] = true
      · cases n with
        | nil => exact containsSub_of_listPrefixOf _ _ rfl
        | cons c cs => simp [listPrefixOf] at hp
      · simp [hp] at h
  | cons x t ih =>
      intro b n h
      rw [containsSub_cons] at h
      rw [List.cons_append, containsSub_cons]
      rcases Bool.or_eq_true_iff.mp h with hp | hc
      · have h2 := listPrefixOf_append_right n (x :: t) b hp
        rw [List.cons_append] at h2
        rw [h2, Bool.true_or]
      · rw [ih b n hc, Bool.or_true]

theorem strData_append (a b : String) : (a ++ b).data = a.data ++ b.data :=
  rfl

theorem strIncludes_append_left (a b n : String)
    (h : strIncludes b n = true) : strIncludes (a ++ b) n = true := by
  unfold strIncludes at *
  rw [strData_append]
  exact containsSub_append_left a.data b.data n.data h

theorem strIncludes_append_right (a b n : String)
    (h : strIncludes a n = true) : strIncludes (a ++ b) n = true := by
  unfold strIncludes at *
  rw [strData_append]
  exact containsSub_append_right a.data b.data n.data h

theorem strIncludes_refl (n : String) : strIncludes n n = true := by
  unfold strIncludes
  exact containsSub_of_listPrefixOf _ _
    (by simpa using listPrefixOf_self_append n.data [])

theorem strIncludes_joinSep (sep : String) :
    ∀ (l : List String) (n : String), n ∈ l →
      strIncludes (joinSep sep l) n = true := by
  intro l
  induction l with
  | nil => intro n hn; cases hn
  | cons x xs ih =>
      intro n hn
      cases xs with
      | nil =>
          rcases List.mem_cons.mp hn with h | h
          · subst h; simpa [joinSep] using strIncludes_refl n
          · cases h
      | cons y ys =>
          rcases List.mem_cons.mp hn with h | h
          · subst h
            show strIncludes (n ++ sep ++ joinSep sep (y :: ys)) n = true
            exact strIncludes_append_right _ _ _
              (strIncludes_append_right _ _ _ (strIncludes_refl n))
          · show strIncludes (x ++ sep ++ joinSep sep (y :: ys)) n = true
            exact strIncludes_append_left _ _ _ (ih n h)

theorem alLookup_alSet_self (k : String) (v : ChatRecord) :
    ∀ l, alLookup k (alSet k v l) = some v := by
  intro l
  induction l with
  | nil => simp [alSet, alLookup]
  | cons p t ih =>
      by_cases hk : p.1 = k
      · simp [alSet, hk, alLookup]
      · simp [alSet, hk, alLookup, ih]

theorem strLength_take (s : String) (n : Nat) :
    (s.take n).length = min n s.length := by
  rw [String.take_eq]
  show (s.data.take n).length = min n s.length
  rw [List.length_take]
  rfl

/- ------------------------------------------------------------------
Claim theorems
------------------------------------------------------------------ -/

/-- Concrete run used against claim C1: refresh three files, toggle "a.txt"
with a blank search, narrow the search to "b", then toggle "b1.txt". -/
def c1State : RagState :=
  toggleFileSelection
    (ragSetSearch
      (toggleFileSelection
        (ragRefreshOk ragInit
          [⟨"a.txt", 1, ".txt", false⟩, ⟨"b1.txt", 1, ".txt", false⟩,
            ⟨"b2.txt", 1, ".txt", false⟩])
        "a.txt")
      "b")
    "b1.txt"

/-- Claim C1 (counterexample): after the run `c1State` the selectAll flag is
true although the SelectionSet {a.txt, b1.txt} differs from the filtered
names {b1.txt, b2.txt} — the toggle recomputation compares lengths, not
sets, and a filter change never recomputes the flag, so the claimed
biconditional fails. -/
theorem c1_counterexample :
    c1State.selectAll = true ∧
    "a.txt" ∈ c1State.selectedFiles ∧
    "a.txt" ∉ (ragFilteredFiles c1State).map (·.name) := by
  decide

/-- Claim C1 (amended): toggling a file recomputes selectAll as a length
comparison between the selection and the filtered view (not a set
comparison); the select-all handler sets the selection to exactly the
filtered names (true) or to empty (false); and changing the search query
leaves selectAll untouched, so the flag is not recomputed when the filter
changes. -/
theorem c1_amended_selectAll_recompute (st : RagState) (n q : String) :
    ((toggleFileSelection st n).selectAll =
      ((toggleFileSelection st n).selectedFiles.length ==
        (ragFilteredFiles st).length)) ∧
    ((ragHandleSelectAll st true).selectedFiles =
      (ragFilteredFiles st).map (·.name)) ∧
    ((ragHandleSelectAll st false).selectedFiles = []) ∧
    ((ragSetSearch st q).selectAll = st.selectAll) := by
  exact ⟨rfl, rfl, rfl, rfl⟩

/-- Claim C7 (counterexample): with the initial method state
(selected = expanded = "option1"), `toggleMethod "option2"` expands the
collapsed "option2" but also changes the selection from "option1" to
"option2", contradicting the claim that expanding leaves the selection
unchanged. -/
theorem c7_counterexample :
    ragInit.selectedMethod = "option1" ∧
    ragInit.expandedMethod ≠ some "option2" ∧
    (toggleMethod ragInit "option2").selectedMethod = "option2" := by
  decide

/-- Claim C7 (amended): `selectMethod id` sets both the selection and the
expansion to `id`; `toggleMethod id` collapses when `id` is expanded while
leaving the selection unchanged — in particular the select("option7") then
toggleExpand("option7") scenario ends collapsed with the selection still
"option7" — and when `id` is not expanded it expands `id` and also sets the
selection to `id`. -/
theorem c7_amended_method_toggle (st : RagState) (id : String) :
    (selectMethod st id).selectedMethod = id ∧
    (selectMethod st id).expandedMethod = some id ∧
    (st.expandedMethod = some id →
      toggleMethod st id = { st with expandedMethod := none }) ∧
    (st.expandedMethod ≠ some id →
      (toggleMethod st id).expandedMethod = some id ∧
      (toggleMethod st id).selectedMethod = id) ∧
    (toggleMethod (selectMethod st "option7") "option7").expandedMethod =
      none ∧
    (toggleMethod (selectMethod st "option7") "option7").selectedMethod =
      "option7" := by
  refine ⟨rfl, rfl, ?_, ?_, ?_, ?_⟩
  · intro h
    simp [toggleMethod, h]
  · intro h
    simp [toggleMethod, h]
  · simp [toggleMethod, selectMethod]
  · simp [toggleMethod, selectMethod]

/-- Witness for the amended claim C7, discharging both hypotheses at
concrete inputs: collapsing the expanded "option1" leaves the state with no
expansion, and toggling the collapsed "option2" afterwards selects it. -/
theorem c7_amended_witness :
    toggleMethod ragInit "option1" = { ragInit with expandedMethod := none } ∧
    (toggleMethod { ragInit with expandedMethod := none }
      "option2").selectedMethod = "option2" := by
  exact ⟨(c7_amended_method_toggle ragInit "option1").2.2.1 rfl,
    ((c7_amended_method_toggle { ragInit with expandedMethod := none }
      "option2").2.2.2.1 (by decide)).2⟩

/-- Storage used against claim C2: one persisted session "c1" with the
placeholder title, selected as current. -/
def c2Storage : Storage :=
  { chatHistoriesKey := some [("c1", ⟨"c1", "新对话", "t", "💬", []⟩)]
    chatCurrentIdKey := some "c1" }

/-- The single user turn of claim C2 followed by the bot reply "OK". -/
def c2Messages : List ChatMsg :=
  [⟨"user", "Please explain retrieval augmented generat"⟩, ⟨"bot", "OK"⟩]

/-- Claim C2 (counterexample): after the single user turn
"Please explain retrieval augmented generat" and the bot reply "OK",
`updateChatHistory` stores the title "OK" — the second message of the
sequence, which on this page is the bot reply — and not the claimed
"Please explain ..." built from the user message. -/
theorem c2_counterexample :
    ((alLookup "c1"
        (getHistories (updateChatHistory c2Storage (some "c1")
          c2Messages))).map (·.title)) = some "OK" ∧
    ("OK" : String) ≠ "Please explain ..." := by
  decide

/-- Characterization of `derivedTitle` when the second message exists and
its 15-character slice is non-empty: the slice followed by "..." exactly
when the content is at least 15 characters long. -/
theorem derivedTitle_of_second (msgs : List ChatMsg) (m : ChatMsg)
    (hm : msgs[1]? = some m) (hne : jsSlice m.content 15 ≠ "") :
    derivedTitle msgs =
      jsSlice m.content 15 ++
        (if 15 ≤ m.content.length then "..." else "") := by
  have hlen : (jsSlice m.content 15).length = min 15 m.content.length := by
    show (m.content.data.take 15).length = min 15 m.content.length
    exact List.length_take 15 m.content.data
  have htitle :
      (if 15 ≤ (jsSlice m.content 15).length then "..." else "") =
        (if 15 ≤ m.content.length then "..." else "") := by
    rw [hlen]
    by_cases h2 : 15 ≤ m.content.length
    · rw [if_pos (Nat.le_min.mpr ⟨Nat.le_refl 15, h2⟩), if_pos h2]
    · rw [if_neg (fun hc => h2 (le_trans hc (Nat.min_le_right _ _))),
        if_neg h2]
  unfold derivedTitle
  simp only [hm, hne, if_neg hne]
  exact congrArg _ htitle

/-- Claim C2 (amended, main theorem): once the message sequence has more
than one entry, `updateChatHistory` stores under the current id the record
carrying the in-memory messages and the title derived from `messages[1]` —
on this page the first bot reply, not the user message — as its first 15
characters with the "..." marker appended exactly when that content is at
least 15 characters long (not only when strictly longer). -/
theorem c2_amended_title_derivation (s : Storage) (cid : Option String)
    (msgs : List ChatMsg) (m : ChatMsg) (rec : ChatRecord)
    (hm : msgs[1]? = some m)
    (hrec : alLookup (jsPropKey cid) (getHistories s) = some rec)
    (hne : jsSlice m.content 15 ≠ "") :
    alLookup (jsPropKey cid)
        (getHistories (updateChatHistory s cid msgs)) =
      some { rec with
              messages := msgs
              title := jsSlice m.content 15 ++
                (if 15 ≤ m.content.length then "..." else "") } := by
  have hlen : msgs.length > 1 := by
    rcases List.getElem?_eq_some.mp hm with ⟨h1, _⟩
    exact h1
  unfold updateChatHistory
  rw [hrec]
  simp only [if_pos hlen]
  rw [derivedTitle_of_second msgs m hm hne]
  show alLookup (jsPropKey cid)
      ((some (alSet (jsPropKey cid) _ (getHistories s))).getD []) = _
  simp only [Option.getD_some]
  rw [alLookup_alSet_self]

/-- Witness for the amended claim C2, storage: one persisted session "w1". -/
def c2wStorage : Storage :=
  { chatHistoriesKey := some [("w1", ⟨"w1", "新对话", "t", "💬", []⟩)]
    chatCurrentIdKey := some "w1" }

/-- Witness for the amended claim C2, messages: one user turn and a
29-character bot reply. -/
def c2wMessages : List ChatMsg :=
  [⟨"user", "hi"⟩, ⟨"bot", "Hello world, nice to meet you"⟩]

/-- Witness for the amended claim C2: the stored title is the first 15
characters of the bot reply plus "...". -/
theorem c2_amended_witness :
    alLookup (jsPropKey (some "w1"))
        (getHistories (updateChatHistory c2wStorage (some "w1")
          c2wMessages)) =
      some ⟨"w1", "Hello world, ni...", "t", "💬", c2wMessages⟩ := by
  rw [c2_amended_title_derivation c2wStorage (some "w1") c2wMessages
    ⟨"bot", "Hello world, nice to meet you"⟩ ⟨"w1", "新对话", "t", "💬", []⟩
    (by decide) (by decide) (by decide)]
  decide

/-- Claim C3: while a send for the session is in flight (`loading` on the
session page, `sending` on the combined page), or when the input is empty
after trimming, a further `sendMessage` call is a complete no-op: the state,
the persisted storage, the dispatched-request slot, and the notices are all
unchanged. -/
theorem c3_inflight_or_empty_send_noop (st : Part1State) (s : Storage)
    (freshId nowStr : String) (o : SendOutcome) (stm : MainState)
    (o2 : SendOutcome) :
    ((st.loading = true ∨ jsTrim st.inputMessage = "") →
      part1SendMessage st s freshId nowStr o = (st, s, none)) ∧
    ((stm.sending = true ∨ jsTrim stm.inputMessage = "") →
      sendMessage stm o2 = (stm, none, [])) := by
  constructor
  · intro h
    unfold part1SendMessage
    rcases h with h | h
    · simp [h]
    · simp [h]
  · intro h
    unfold sendMessage sendMessageStart
    rcases h with h | h
    · simp [h]
    · simp [h]

/-- Witness state for claim C3 on the session page: non-empty input but a
send already in flight. -/
def c3wPart1 : Part1State :=
  { part1Init with inputMessage := "hi", loading := true }

/-- Witness storage for claim C3. -/
def c3wStorage : Storage :=
  { chatHistoriesKey := some [], chatCurrentIdKey := none }

/-- Witness state for claim C3 on the combined page: whitespace-only
input. -/
def c3wMain : MainState := { mainInit with inputMessage := "  " }

/-- Witness for claim C3, discharging both guards at concrete inputs. -/
theorem c3_witness :
    part1SendMessage c3wPart1 c3wStorage "chat_9" "t" (.sok ⟨"r", [], ""⟩) =
      (c3wPart1, c3wStorage, none) ∧
    sendMessage c3wMain .sreject = (c3wMain, none, []) := by
  exact ⟨(c3_inflight_or_empty_send_noop c3wPart1 c3wStorage "chat_9" "t"
      (.sok ⟨"r", [], ""⟩) c3wMain .sreject).1 (Or.inl rfl),
    (c3_inflight_or_empty_send_noop c3wPart1 c3wStorage "chat_9" "t"
      (.sok ⟨"r", [], ""⟩) c3wMain .sreject).2 (Or.inr (by decide))⟩

/-- Claim C4: when the precondition holds, the pre-dispatch phase of
`sendMessage` (src/static/app.js) appends exactly the user message to the
visible list and only then produces the request; once the outcome resolves,
exactly one bot message is appended after it — the formatted reply on
success, the fixed apologetic message on a non-ok response or rejection. -/
theorem c4_user_before_dispatch_bot_after (st : MainState) (o : SendOutcome)
    (hmsg : jsTrim st.inputMessage ≠ "") (hsend : st.sending = false) :
    (sendMessageStart st).2 =
      some ⟨jsTrim st.inputMessage, st.selectedOption⟩ ∧
    (sendMessageStart st).1.messages =
      st.messages ++ [⟨"user", jsTrim st.inputMessage⟩] ∧
    (sendMessageFinish (sendMessageStart st).1 o).1.messages =
      (sendMessageStart st).1.messages ++
        [⟨"bot",
          match o with
          | .sok r => formatReply r
          | .snotOk => "抱歉，发生了错误，请稍后再试。"
          | .sreject => "抱歉，发生了错误，请稍后再试。"⟩] := by
  refine ⟨?_, ?_, ?_⟩
  · unfold sendMessageStart
    simp [hmsg, hsend]
  · unfold sendMessageStart
    simp [hmsg, hsend]
  · cases o <;> rfl

/-- Witness state for claim C4: the combined page with a pending input. -/
def c4wState : MainState := { mainInit with inputMessage := "为什么天是蓝的" }

/-- Witness for claim C4 at a successful outcome with no sources. -/
theorem c4_witness :
    (sendMessageStart c4wState).2 = some ⟨"为什么天是蓝的", "option1"⟩ ∧
    (sendMessageStart c4wState).1.messages =
      c4wState.messages ++ [⟨"user", "为什么天是蓝的"⟩] ∧
    (sendMessageFinish (sendMessageStart c4wState).1
        (.sok ⟨"回答", [], ""⟩)).1.messages =
      (sendMessageStart c4wState).1.messages ++
        [⟨"bot", formatReply ⟨"回答", [], ""⟩⟩] := by
  have h := c4_user_before_dispatch_bot_after c4wState
    (.sok ⟨"回答", [], ""⟩) (by decide) rfl
  refine ⟨?_, ?_, h.2.2⟩
  · rw [h.1]
    decide
  · rw [h.2.1]
    decide

/-- Claim C5: whenever a request is actually dispatched, the per-session
busy flag (`sending` on the combined page, `loading` on the session page) is
false again after resolution, for a successful reply, a non-ok response, and
a rejection alike. -/
theorem c5_busy_flag_always_cleared (stm : MainState) (o : SendOutcome)
    (st : Part1State) (s : Storage) (freshId nowStr : String)
    (o2 : SendOutcome) :
    (jsTrim stm.inputMessage ≠ "" → stm.sending = false →
      (sendMessage stm o).1.sending = false) ∧
    (jsTrim st.inputMessage ≠ "" → st.loading = false →
      (part1SendMessage st s freshId nowStr o2).1.loading = false) := by
  constructor
  · intro h1 h2
    cases o <;>
      simp [sendMessage, sendMessageStart, sendMessageFinish, h1, h2]
  · intro h1 h2
    cases o2 <;> simp [part1SendMessage, h1, h2]

/-- Witness for claim C5 at concrete inputs, one per page, covering a
rejected request and a non-ok response. -/
theorem c5_witness :
    (sendMessage c4wState .sreject).1.sending = false ∧
    (part1SendMessage { part1Init with inputMessage := "hi" } c3wStorage
      "chat_9" "t" .snotOk).1.loading = false := by
  exact ⟨(c5_busy_flag_always_cleared c4wState .sreject
      { part1Init with inputMessage := "hi" } c3wStorage "chat_9" "t"
      .snotOk).1 (by decide) rfl,
    (c5_busy_flag_always_cleared c4wState .sreject
      { part1Init with inputMessage := "hi" } c3wStorage "chat_9" "t"
      .snotOk).2 (by decide) rfl⟩

/-- The chat result used against claim C6: non-empty sources with the
general source kind. -/
def c6Result : ChatResult := ⟨"m", ["s"], "general"⟩

/-- Claim C6 (counterexample): for non-empty sources with
`source_type = "general"`, the code appends the fixed network marker — the
non-local branch of the sources-present case — while the claim's decision
tree demands the general-knowledge marker; the two disagree at `c6Result`. -/
theorem c6_counterexample :
    formatReply c6Result = "m" ++ "\n\n" ++ "🌐 **来源**：网络" ∧
    claimFormatReplyC6 c6Result = "m" ++ "\n\n🌐 **来源**：通用知识" ∧
    formatReply c6Result ≠ claimFormatReplyC6 c6Result := by
  decide

/-- Claim C6 (amended): when `sources` is non-empty, a local source kind
yields the citation block listing each source and any other kind yields the
fixed network marker; when `sources` is empty, the general kind yields the
general-knowledge marker and any other kind the bare message. -/
theorem c6_amended_reply_formatting (r : ChatResult) :
    (r.sources ≠ [] → r.source_type = "local" →
      formatReply r =
        r.message ++ "\n\n" ++ ("📚 **出处**：" ++ joinSep "、" r.sources)) ∧
    (r.sources ≠ [] → r.source_type ≠ "local" →
      formatReply r = r.message ++ "\n\n" ++ "🌐 **来源**：网络") ∧
    (r.sources = [] → r.source_type = "general" →
      formatReply r = r.message ++ "\n\n🌐 **来源**：通用知识") ∧
    (r.sources = [] → r.source_type ≠ "general" →
      formatReply r = r.message) := by
  refine ⟨?_, ?_, ?_, ?_⟩ <;> intro h1 h2 <;> simp [formatReply, h1, h2]

/-- Witness for the amended claim C6, exercising the empty-sources general
branch and the non-empty non-local branch at concrete inputs. -/
theorem c6_amended_witness :
    formatReply ⟨"m", [], "general"⟩ = "m" ++ "\n\n🌐 **来源**：通用知识" ∧
    formatReply ⟨"m", ["s"], "network"⟩ =
      "m" ++ "\n\n" ++ "🌐 **来源**：网络" := by
  exact ⟨(c6_amended_reply_formatting ⟨"m", [], "general"⟩).2.2.1 rfl rfl,
    (c6_amended_reply_formatting ⟨"m", ["s"], "network"⟩).2.1 (by decide)
      (by decide)⟩

/-- Claim C8: with a non-empty selection, (i) a name is in `filesWithIndex`
exactly when it is a selected, indexed registry name; (ii) every such name
appears in the confirmation text's cascade listing; (iii) every reported
deleted index appears in the index segment of the one success summary, and
every reported deleted file in the summary as well; (iv) the confirmed ok
path surfaces exactly that summary; (v) it clears the SelectionSet; and
(vi) when the follow-up refresh returns a catalog without the deleted
names, none of them remains in the registry. -/
theorem c8_delete_cascade (st : MainState) (r : DeleteResult)
    (ro : RefreshOutcome) (entries : List UploadEntry) (n m d x : String)
    (hsel : st.selectedFiles ≠ []) :
    (n ∈ filesWithIndex st ↔
      (n ∈ st.selectedFiles ∧
        ∃ f ∈ st.uploadedFiles, f.name = n ∧ f.indexed = true)) ∧
    (n ∈ filesWithIndex st →
      strIncludes (deleteConfirmMessage st) n = true) ∧
    (m ∈ r.deleted_indexes →
      strIncludes (deleteIndexSegment r) m = true ∧
      strIncludes (deleteSummary r) m = true) ∧
    (d ∈ r.deleted_files → strIncludes (deleteSummary r) d = true) ∧
    ((handleDeleteClick st (.dfOk r) ro).2 =
      [("success", deleteSummary r)]) ∧
    ((handleDeleteClick st (.dfOk r) ro).1.selectedFiles = [] ∧
      (handleDeleteClick st (.dfOk r) ro).1.selectAll = false) ∧
    (ro = .rok entries → x ∈ r.deleted_files →
      x ∉ entries.map (·.filename) →
      x ∉ ((handleDeleteClick st (.dfOk r) ro).1.uploadedFiles.map
        (·.name))) := by
  have hlen : ¬(st.selectedFiles.length = 0) := by
    intro h
    exact hsel (List.length_eq_zero.mp h)
  refine ⟨?_, ?_, ?_, ?_, ?_, ?_, ?_⟩
  · unfold filesWithIndex
    simp only [List.mem_map, List.mem_filter, Bool.and_eq_true,
      List.contains_eq_any_beq, List.any_eq_true, beq_iff_eq]
    constructor
    · rintro ⟨f, ⟨hf, ⟨g, hg, hgf⟩, hidx⟩, hname⟩
      subst hname
      exact ⟨by rw [← hgf] at hg; exact hg, f, hf, rfl, hidx⟩
    · rintro ⟨hn, f, hf, hname, hidx⟩
      exact ⟨f, ⟨hf, ⟨f.name, by rw [hname]; exact hn, rfl⟩, hidx⟩, hname⟩
  · intro hn
    have hne : filesWithIndex st ≠ [] := List.ne_nil_of_mem hn
    unfold deleteConfirmMessage
    rw [if_pos hne]
    exact strIncludes_append_left _ _ _ (strIncludes_joinSep _ _ _ hn)
  · intro hm
    have hne : r.deleted_indexes ≠ [] := List.ne_nil_of_mem hm
    have hseg : strIncludes (deleteIndexSegment r) m = true := by
      unfold deleteIndexSegment
      rw [if_pos hne]
      exact strIncludes_append_left _ _ _ (strIncludes_joinSep _ _ _ hm)
    refine ⟨hseg, ?_⟩
    unfold deleteSummary
    exact strIncludes_append_right _ _ _
      (strIncludes_append_left _ _ _ hseg)
  · intro hd
    have hne : r.deleted_files ≠ [] := List.ne_nil_of_mem hd
    have hseg : strIncludes (deleteFileSegment r) d = true := by
      unfold deleteFileSegment
      rw [if_pos hne]
      exact strIncludes_append_left _ _ _ (strIncludes_joinSep _ _ _ hd)
    unfold deleteSummary
    exact strIncludes_append_left _ _ _ hseg
  · cases ro <;> simp [handleDeleteClick, loadUploadedFiles, hlen]
  · cases ro <;> simp [handleDeleteClick, loadUploadedFiles, hlen]
  · intro hro hx hnotin
    subst hro
    have hfiles :
        (handleDeleteClick st (.dfOk r) (.rok entries)).1.uploadedFiles =
          entries.map (fun f =>
            (⟨f.filename, f.size, f.ftype, f.indexed⟩ : FileRec)) := by
      simp [handleDeleteClick, hlen, loadUploadedFiles]
    intro hmem
    rw [hfiles, List.map_map] at hmem
    rcases List.mem_map.mp hmem with ⟨e, he, hename⟩
    exact hnotin (List.mem_map.mpr ⟨e, he, hename⟩)

/-- Witness state for claim C8: two files, one indexed, both selected (the
spec's own scenario). -/
def c8wState : MainState :=
  { mainInit with
      uploadedFiles :=
        [⟨"a.txt", 10, ".txt", false⟩, ⟨"b.pdf", 20, ".pdf", true⟩]
      selectedFiles := ["a.txt", "b.pdf"] }

/-- Witness delete response for claim C8: both files deleted, the index of
"b.pdf" cascade-deleted. -/
def c8wResult : DeleteResult :=
  ⟨"已删除 2 个文件", ["a.txt", "b.pdf"], ["b.pdf"]⟩

/-- Witness for claim C8 at the spec's scenario: the indexed name appears in
the confirmation and in the summary, the selection ends empty, and after a
refresh returning an empty catalog the deleted name is gone from the
registry. -/
theorem c8_witness :
    strIncludes (deleteConfirmMessage c8wState) "b.pdf" = true ∧
    strIncludes (deleteSummary c8wResult) "b.pdf" = true ∧
    (handleDeleteClick c8wState (.dfOk c8wResult) (.rok [])).2 =
      [("success", deleteSummary c8wResult)] ∧
    (handleDeleteClick c8wState (.dfOk c8wResult)
      (.rok [])).1.selectedFiles = [] ∧
    "b.pdf" ∉ ((handleDeleteClick c8wState (.dfOk c8wResult)
      (.rok [])).1.uploadedFiles.map (·.name)) := by
  have h := c8_delete_cascade c8wState c8wResult (.rok []) [] "b.pdf"
    "b.pdf" "b.pdf" "b.pdf" (by decide)
  exact ⟨h.2.1 (by decide), (h.2.2.1 (by decide)).2, h.2.2.2.2.1,
    h.2.2.2.2.2.1.1, h.2.2.2.2.2.2 rfl (by decide) (by decide)⟩

/-- State used against claim C9: one file, selected. -/
def c9State : MainState :=
  { mainInit with
      uploadedFiles := [⟨"a.txt", 1, ".txt", false⟩]
      selectedFiles := ["a.txt"] }

/-- Claim C9 (counterexample): a non-ok response to the catalog refresh
leaves the state unchanged but surfaces no user-visible notice at all — the
failure is silent (only the rejection path even logs to the console) —
contradicting the claim that every failed operation surfaces a user-visible
transient error. -/
theorem c9_counterexample :
    loadUploadedFiles c9State .rnotOk = (c9State, []) := by
  rfl

/-- Claim C9 (amended): every non-ok response or rejection of refresh,
createIndex, deleteIndex, or deleteFiles leaves the component state —
registry, SelectionSet, selectAll — exactly as before with no partial
mutation, and once a request was actually dispatched the three mutating
operations surface a user-visible error notice; refresh failures, however,
surface nothing. -/
theorem c9_amended_failure_rollback (st : MainState) (ro : RefreshOutcome) :
    ((loadUploadedFiles st .rnotOk).1 = st ∧
      (loadUploadedFiles st .rreject).1 = st) ∧
    ((handleIndexClick st .inotOk ro).1 = st ∧
      (handleIndexClick st .ireject ro).1 = st) ∧
    ((handleDeleteIndexClick st .dnotOk ro).1 = st ∧
      (handleDeleteIndexClick st .dreject ro).1 = st) ∧
    ((handleDeleteClick st .dfNotOk ro).1 = st ∧
      (handleDeleteClick st .dfReject ro).1 = st ∧
      (handleDeleteClick st .cancel ro).1 = st) ∧
    (st.selectedFiles ≠ [] →
      (("error", "索引失败，请稍后再试") ∈ (handleIndexClick st .inotOk ro).2 ∧
        ("error", "索引失败，请稍后再试") ∈ (handleIndexClick st .ireject ro).2) ∧
      (("error", "删除索引失败，请稍后再试") ∈
          (handleDeleteIndexClick st .dnotOk ro).2 ∧
        ("error", "删除索引失败，请稍后再试") ∈
          (handleDeleteIndexClick st .dreject ro).2) ∧
      (("error", "删除文件失败，请稍后再试") ∈
          (handleDeleteClick st .dfNotOk ro).2 ∧
        ("error", "删除文件失败，请稍后再试") ∈
          (handleDeleteClick st .dfReject ro).2)) ∧
    ((loadUploadedFiles st .rnotOk).2 = [] ∧
      (loadUploadedFiles st .rreject).2 = []) := by
  by_cases hlen : st.selectedFiles.length = 0
  · refine ⟨⟨rfl, rfl⟩, ?_, ?_, ?_, ?_, ⟨rfl, rfl⟩⟩
    · exact ⟨by simp [handleIndexClick, hlen],
        by simp [handleIndexClick, hlen]⟩
    · exact ⟨by simp [handleDeleteIndexClick, hlen],
        by simp [handleDeleteIndexClick, hlen]⟩
    · exact ⟨by simp [handleDeleteClick, hlen],
        by simp [handleDeleteClick, hlen],
        by simp [handleDeleteClick, hlen]⟩
    · intro hsel
      exact absurd (List.length_eq_zero.mp hlen) hsel
  · refine ⟨⟨rfl, rfl⟩, ?_, ?_, ?_, ?_, ⟨rfl, rfl⟩⟩
    · exact ⟨by simp [handleIndexClick, hlen],
        by simp [handleIndexClick, hlen]⟩
    · exact ⟨by simp [handleDeleteIndexClick, hlen],
        by simp [handleDeleteIndexClick, hlen]⟩
    · exact ⟨by simp [handleDeleteClick, hlen],
        by simp [handleDeleteClick, hlen],
        by simp [handleDeleteClick, hlen]⟩
    · intro _
      refine ⟨⟨?_, ?_⟩, ⟨?_, ?_⟩, ⟨?_, ?_⟩⟩ <;>
        simp [handleIndexClick, handleDeleteIndexClick, handleDeleteClick,
          hlen]

/-- Witness for the amended claim C9 at a concrete selected state: the
failed index-creation call leaves the state unchanged and surfaces its
error notice. -/
theorem c9_amended_witness :
    (handleIndexClick c9State .ireject .rnotOk).1 = c9State ∧
    ("error", "索引失败，请稍后再试") ∈
      (handleIndexClick c9State .ireject .rnotOk).2 := by
  exact ⟨(c9_amended_failure_rollback c9State .rnotOk).2.1.2,
    ((c9_amended_failure_rollback c9State .rnotOk).2.2.2.2.1
      (by decide)).1.2⟩

/-- Claim C10: deleting the active session and clearing all history both
store the literal string "null" under the chatCurrentId key; a later
initialization reads that string back as the truthy in-memory id, so a send
does not allocate a new session; and because `updateChatHistory` only
mutates the persisted map when the current id keys an existing session, the
whole storage is left unchanged by that turn while the user and bot
messages exist only in the in-memory view. -/
theorem c10_null_string_current_id (st : Part1State) (s s2 : Storage)
    (id nowStr : String) (pst : Part1State) (freshId nowStr2 : String)
    (r : ChatResult) :
    (st.currentChatId = some id →
      (part1DeleteChat st s id nowStr).2.chatCurrentIdKey = some "null") ∧
    ((clearAllHistory s).chatCurrentIdKey = some "null" ∧
      (clearAllHistory s).chatHistoriesKey = some []) ∧
    (s2.chatCurrentIdKey = some "null" →
      (initLocalStorage s2).2 = some "null" ∧
      jsStrTruthy (initLocalStorage s2).2 = true) ∧
    (pst.currentChatId = some "null" → pst.loading = false →
      jsTrim pst.inputMessage ≠ "" →
      alLookup "null" (getHistories s2) = none →
      (part1SendMessage pst s2 freshId nowStr2 (.sok r)).2.1 = s2 ∧
      (part1SendMessage pst s2 freshId nowStr2 (.sok r)).1.currentChatId =
        some "null" ∧
      (part1SendMessage pst s2 freshId nowStr2 (.sok r)).1.currentMessages =
        pst.currentMessages ++
          [⟨"user", jsTrim pst.inputMessage⟩, ⟨"bot", r.message⟩]) := by
  refine ⟨?_, ⟨rfl, rfl⟩, ?_, ?_⟩
  · intro h
    simp [part1DeleteChat, h]
  · intro h
    have hinit : (initLocalStorage s2).2 = some "null" := by
      unfold initLocalStorage
      by_cases hc : s2.chatHistoriesKey = none <;> simp [hc, h]
    exact ⟨hinit, by rw [hinit]; decide⟩
  · intro h1 h2 h3 h4
    have htr : jsStrTruthy pst.currentChatId = true := by
      rw [h1]
      decide
    unfold part1SendMessage
    simp only [h2, h3, htr, Bool.not_true, Bool.false_eq_true, if_false,
      Bool.or_false, decide_eq_true_eq, if_neg h3]
    unfold updateChatHistory
    simp only [h1, jsPropKey, h4, Option.isSome_none, Bool.false_eq_true,
      if_false, List.append_assoc, List.cons_append, List.nil_append]
    refine ⟨?_, ?_, ?_⟩ <;> first | rfl | trivial

/-- Witness session record for claim C10. -/
def c10wRecord : ChatRecord := ⟨"chat_1", "新对话", "t", "💬", []⟩

/-- Witness storage for claim C10: one session, selected as current. -/
def c10wStorage : Storage :=
  { chatHistoriesKey := some [("chat_1", c10wRecord)]
    chatCurrentIdKey := some "chat_1" }

/-- Witness page state for claim C10 with the stored session active. -/
def c10wPage : Part1State :=
  { part1Init with currentChatId := some "chat_1" }

/-- Storage left behind by deleting the active session in the C10
witness. -/
def c10wDeleted : Storage :=
  (part1DeleteChat c10wPage c10wStorage "chat_1" "t").2

/-- Page state after the next initialization in the C10 witness, with a
pending input. -/
def c10wNext : Part1State :=
  { part1Init with
      currentChatId := (initLocalStorage c10wDeleted).2
      inputMessage := "hello" }

/-- Witness for claim C10: after deleting the active session, the stored
current id is the string "null"; re-initialization reads it back; and the
next turn leaves the storage untouched while the two messages live only in
memory. -/
theorem c10_witness :
    c10wDeleted.chatCurrentIdKey = some "null" ∧
    (initLocalStorage c10wDeleted).2 = some "null" ∧
    (part1SendMessage c10wNext c10wDeleted "chat_2" "t2"
      (.sok ⟨"re", [], ""⟩)).2.1 = c10wDeleted ∧
    (part1SendMessage c10wNext c10wDeleted "chat_2" "t2"
      (.sok ⟨"re", [], ""⟩)).1.currentMessages =
      [⟨"user", "hello"⟩, ⟨"bot", "re"⟩] := by
  have h := c10_null_string_current_id c10wPage c10wStorage c10wDeleted
    "chat_1" "t" c10wNext "chat_2" "t2" ⟨"re", [], ""⟩
  have h4 := h.2.2.2 (by decide) rfl (by decide) (by decide)
  refine ⟨h.1 rfl, (h.2.2.1 (h.1 rfl)).1, h4.1, ?_⟩
  rw [h4.2.2]
  decide
